import Mathlib

/-!
Shallow embedding of `app.py` (Farm Waste → Fertilizer Advisor).

Conventions of the embedding:
* Python floats (similarity scores, quantities, yield percentages) are
  modelled as rationals (`ℚ`).
* The rapidfuzz similarity scorer `fuzz.WRatio` is an external library
  function; it is kept abstract as a parameter `Scorer`.  The library
  entry points `process.extractOne` and `process.extract` are likewise
  external; they are modelled from the spec's description of their
  behaviour (maximum score, ties broken by earliest position; ranked
  list sorted descending by score, ties by position).
* Python `str.strip()` is modelled by `pyStrip` (drop whitespace from
  both ends).
* A pandas row cell for the optional `Yield_pct` column is modelled by
  `Cell`: a value `float()` accepts, a value it rejects, or an absent
  field.
* Streamlit session state relevant to the append handler (the in-memory
  dataframe and the persisted CSV) is modelled by `AppState`.
-/

/-- Similarity scores (rapidfuzz returns floats in [0,100]); modelled as `ℚ`. -/
abbrev Score := ℚ

/-- An abstract similarity scorer, standing for rapidfuzz `fuzz.WRatio`. -/
abbrev Scorer := String → String → Score

/-- Model of Python `str.strip()`: remove whitespace from both ends. -/
def pyStrip (s : String) : String :=
  ⟨(((s.data.dropWhile (fun c => c.isWhitespace)).reverse.dropWhile
      (fun c => c.isWhitespace)).reverse)⟩

/-- A cell of the optional `Yield_pct` column of a dataframe row:
either a value that Python `float()` converts successfully, a value on
which `float()` raises (modelled by the raw text), or an absent field. -/
inductive Cell where
  | num (q : ℚ)
  | text (s : String)
  | absent
deriving DecidableEq

/-- A row of `waste_data.csv` as the app reads it (`row.to_dict()`), with
the stable column names of the spec. -/
structure Row where
  wasteType : String
  bestUse : String
  compostTime : String
  nutrient : String
  tips : String
  Yield_pct : Cell
deriving DecidableEq

/-- One step of the maximum search performed by rapidfuzz
`process.extractOne`: keep the strictly better candidate, so the first
candidate attaining the maximum wins. -/
def step (scorer : Scorer) (query : String) : String × Score → String → String × Score :=
  fun best cand => if best.2 < scorer query cand then (cand, scorer query cand) else best

/-- Modelled from the spec: rapidfuzz `process.extractOne(query, choices,
scorer=fuzz.WRatio)` is an external library call not in `src/`.  Per the
spec (§4.1) it selects the candidate with maximum score, ties broken by
earliest position in `choices`, and returns `None` on empty `choices`. -/
def extractOne (scorer : Scorer) (query : String) (choices : List String) :
    Option (String × Score) :=
  match choices with
  | [] => none
  | c :: cs => some (cs.foldl (step scorer query) (c, scorer query c))

/-- Pair every candidate with its position, starting at `n`. -/
def withIdx : List String → ℕ → List (String × ℕ)
  | [], _ => []
  | c :: cs, n => (c, n) :: withIdx cs (n + 1)

/-- The ranking order used by the suggestion list: higher score first,
ties broken by earlier position in the candidate list. -/
def extractRel (a b : String × Score × ℕ) : Prop :=
  b.2.1 < a.2.1 ∨ (a.2.1 = b.2.1 ∧ a.2.2 ≤ b.2.2)

instance : DecidableRel extractRel := fun a b => by
  unfold extractRel; infer_instance

instance : IsTotal (String × Score × ℕ) extractRel where
  total a b := by
    unfold extractRel
    rcases lt_trichotomy a.2.1 b.2.1 with h | h | h
    · exact Or.inr (Or.inl h)
    · rcases Nat.le_total a.2.2 b.2.2 with h2 | h2
      · exact Or.inl (Or.inr ⟨h, h2⟩)
      · exact Or.inr (Or.inr ⟨h.symm, h2⟩)
    · exact Or.inl (Or.inl h)

instance : IsTrans (String × Score × ℕ) extractRel where
  trans a b c hab hbc := by
    unfold extractRel at *
    rcases hab with h1 | ⟨h1, h1i⟩ <;> rcases hbc with h2 | ⟨h2, h2i⟩
    · exact Or.inl (h2.trans h1)
    · exact Or.inl (h2 ▸ h1)
    · exact Or.inl (h1 ▸ h2)
    · exact Or.inr ⟨h1.trans h2, h1i.trans h2i⟩

/-- All candidates scored and ranked (descending score, ties by position). -/
def extractRanked (scorer : Scorer) (query : String) (choices : List String) :
    List (String × Score × ℕ) :=
  List.insertionSort extractRel
    ((withIdx choices 0).map (fun p => (p.1, scorer query p.1, p.2)))

/-- Modelled from the spec: rapidfuzz `process.extract(query, choices,
scorer=fuzz.WRatio, limit=k)` is an external library call not in `src/`.
Per the spec (§4.1, `topK`) it returns the `(candidate, score)` pairs
sorted descending by score, ties broken by the candidate's position in
`choices`, truncated to `k` entries, independent of any score cutoff. -/
def extract (scorer : Scorer) (query : String) (choices : List String) (limit : ℕ) :
    List (String × Score) :=
  ((extractRanked scorer query choices).take limit).map (fun t => (t.1, t.2.1))

/-- Embedding of `find_best_match` (app.py lines 48-56): query rapidfuzz
for the best candidate, accept it when its score reaches `score_cutoff`
(the call site uses the default 50), otherwise report no match together
with the best score found; on no result (empty `choices`) report
`(None, 0)`. -/
def find_best_match (scorer : Scorer) (user_input : String) (choices : List String)
    (score_cutoff : Score) : Option String × Score :=
  match extractOne scorer user_input choices with
  | some (m, score) => if score_cutoff ≤ score then (some m, score) else (none, score)
  | none => (none, 0)

/-- Failure taxonomy of the spec (§7) relevant to the Matcher. -/
inductive MatchErr where
  | invalidInput
deriving DecidableEq

/-- The Matcher's call embedded with an explicit error channel: the code
path of `find_best_match` raises nothing, so it always returns `ok`. -/
def find_best_matchE (scorer : Scorer) (user_input : String) (choices : List String)
    (score_cutoff : Score) : Except MatchErr (Option String × Score) :=
  Except.ok (find_best_match scorer user_input choices score_cutoff)

/-- The Matcher as the spec words its failure behaviour (spec definition,
for comparison only): an empty candidate list fails with `InvalidInput`. -/
def matchSpecE (scorer : Scorer) (user_input : String) (choices : List String)
    (score_cutoff : Score) : Except MatchErr (Option String × Score) :=
  if choices = [] then Except.error MatchErr.invalidInput
  else Except.ok (find_best_match scorer user_input choices score_cutoff)

/-- The three recommendation outcomes of the display logic
(app.py lines 58-122): a matched card, the unmatched branch with the
closest score and the suggestion list, or the empty-input prompt. -/
inductive Outcome where
  | matched (name : String) (score : Score)
  | unmatched (closest : Score) (suggestions : List (String × Score))
  | emptyInput
deriving DecidableEq

/-- Embedding of the outcome-selection logic (app.py lines 58-69 and
113-122): a non-empty selectbox choice wins with score 100; else
non-blank free text is fuzzy-matched with cutoff 50, routing to the
matched card or to the suggestion list; else the empty-input prompt. -/
def recommend (scorer : Scorer) (selected user_text : String)
    (waste_list : List String) : Outcome :=
  if selected ≠ "" then Outcome.matched selected 100
  else if pyStrip user_text ≠ "" then
    match find_best_match scorer (pyStrip user_text) waste_list 50 with
    | (some mt, score) => Outcome.matched mt score
    | (none, score) => Outcome.unmatched score (extract scorer (pyStrip user_text) waste_list 5)
  else Outcome.emptyInput

/-- Embedding of `df[df["Waste Type"] == matched_type].iloc[0]`
(app.py lines 72-73): the first row whose name equals the matched name,
or `none` when no row matches (where pandas would raise). -/
def waste_row (df : List Row) (name : String) : Option Row :=
  (df.filter (fun r => r.wasteType = name)).head?

/-- The record the matched-card display and the report use for an outcome. -/
def displayed_record (df : List Row) (o : Outcome) : Option Row :=
  match o with
  | Outcome.matched name _ => waste_row df name
  | _ => none

/-- Embedding of the yield-percentage selection (app.py lines 84-88):
`float(yp)` when the cell holds a convertible value, the default `40.0`
when conversion raises or the field is absent. -/
def yield_pct (yp : Cell) : ℚ :=
  match yp with
  | Cell.num q => q
  | Cell.text _ => 40
  | Cell.absent => 40

/-- The yield-percentage selection as the claim words it (spec
definition, for comparison only): the cell's value only when it parses
as a valid positive number, the default `40.0` otherwise. -/
def yield_pct_spec (yp : Cell) : ℚ :=
  match yp with
  | Cell.num q => if 0 < q then q else 40
  | Cell.text _ => 40
  | Cell.absent => 40

/-- Embedding of `est_compost = qty * (yield_pct / 100.0)` (app.py line 89). -/
def est_compost (qty : ℚ) (yp : Cell) : ℚ :=
  qty * (yield_pct yp / 100)

/-- Model of Python `f"{x:.2f}"` on the exact rational value: render with
exactly two decimals, rounding half up. -/
def fmt2 (q : ℚ) : String :=
  let cents := (200 * q.num.natAbs + q.den) / (2 * q.den)
  (if q.num < 0 then "-" else "") ++ toString (cents / 100) ++ "." ++
    (if cents % 100 < 10 then "0" else "") ++ toString (cents % 100)

/-- Python truthiness of an optional float (`if qty and est:`):
`None` and `0.0` are falsy. -/
def truthy (o : Option ℚ) : Bool :=
  match o with
  | none => false
  | some q => decide (q ≠ 0)

/-- Embedding of `format_report` (app.py lines 94-108).  The generated
timestamp is passed in as `now`.  Note the faithful separator: the
source reads `"\\n".join(lines)`, whose Python value is the
two-character sequence backslash-n, not a newline. -/
def format_report (now : String) (wt_row : Row) (qty : Option ℚ) (est : Option ℚ) :
    String :=
  let lines := ["Farm Waste → Fertilizer Advisor Report",
    "Generated: " ++ now,
    "",
    "Waste Type: " ++ wt_row.wasteType,
    "Best Use: " ++ wt_row.bestUse,
    "Compost Time: " ++ wt_row.compostTime,
    "Nutrient: " ++ wt_row.nutrient,
    "Tips: " ++ wt_row.tips]
  let lines := if truthy qty && truthy est then
    lines ++ ["",
      "Input Quantity: " ++ fmt2 (qty.getD 0) ++ " kg",
      "Estimated Compost Output: " ++ fmt2 (est.getD 0) ++ " kg"]
    else lines
  String.intercalate "\\n" lines

/-- The mutable state the append handler touches: the in-memory dataframe
and the persisted CSV contents. -/
structure AppState where
  catalog : List Row
  storage : List Row
deriving DecidableEq

/-- The row the append handler constructs (app.py lines 140-151): each
text field stripped; the `Yield_pct` field present only when the yield
text is non-blank and Python `float()` (the parameter `pyFloat`, an
external conversion) accepts it. -/
def newRecord (pyFloat : String → Option ℚ)
    (new_waste new_best_use new_compost new_nutrient new_tips new_yield : String) : Row :=
  { wasteType := pyStrip new_waste,
    bestUse := pyStrip new_best_use,
    compostTime := pyStrip new_compost,
    nutrient := pyStrip new_nutrient,
    tips := pyStrip new_tips,
    Yield_pct :=
      if pyStrip new_yield = "" then Cell.absent
      else match pyFloat (pyStrip new_yield) with
        | some q => Cell.num q
        | none => Cell.absent }

/-- Embedding of the "Add new waste type" button handler (app.py lines
136-154): reject a blank name with an error message and leave both the
dataframe and the CSV untouched; otherwise append the constructed row
and persist the whole dataframe. -/
def addNewWaste (pyFloat : String → Option ℚ) (st : AppState)
    (new_waste new_best_use new_compost new_nutrient new_tips new_yield : String) :
    AppState × Option String :=
  if pyStrip new_waste = "" then (st, some "Enter a waste type name.")
  else
    let df := st.catalog ++
      [newRecord pyFloat new_waste new_best_use new_compost new_nutrient new_tips new_yield]
    ({ catalog := df, storage := df }, none)

/-- Concrete catalog row used by witnesses. -/
def cowRow : Row :=
  { wasteType := "Cow Manure", bestUse := "Organic Manure", compostTime := "4-6 weeks",
    nutrient := "Nitrogen-rich", tips := "Compost before use", Yield_pct := Cell.absent }

/-- Concrete catalog row used by witnesses. -/
def bananaRow : Row :=
  { wasteType := "Banana Peels", bestUse := "Potassium compost", compostTime := "3-4 weeks",
    nutrient := "Potassium-rich", tips := "Chop before composting", Yield_pct := Cell.num 35 }

/-- A later row bearing a duplicate name, used by the duplicate-name witness. -/
def cowRowDup : Row :=
  { wasteType := "Cow Manure", bestUse := "Duplicate entry", compostTime := "",
    nutrient := "", tips := "", Yield_pct := Cell.absent }

/-- Concrete catalog with a duplicated name, used by witnesses. -/
def demoCatalog : List Row := [cowRow, bananaRow, cowRowDup]

/-- Concrete scorer used by witnesses. -/
def wScorer : Scorer := fun _ cand => if cand = "Cow Manure" then 60 else 20

/-- A syntactically different scorer agreeing with `wScorer` on the demo
candidates, used by the determinism witness. -/
def wScorer2 : Scorer := fun _ cand => if cand.length = 10 then 60 else 20

/-- Concrete all-zero scorer used by counterexamples. -/
def zScorer : Scorer := fun _ _ => 0

/-- Concrete app state used by the append witness. -/
def st0 : AppState := { catalog := [cowRow], storage := [cowRow] }

/-- Concrete stand-in for Python `float()` that accepts nothing, used by
the append witness (the yield text there is blank, so it is never asked). -/
def pf0 : String → Option ℚ := fun _ => none

/-- The maximum fold keeps its score attained by its first component:
the result is either the initial pair or a scanned candidate with its score. -/
theorem foldl_step_cases (scorer : Scorer) (query : String) (cs : List String) :
    ∀ (init : String × Score),
      cs.foldl (step scorer query) init = init ∨
      ((cs.foldl (step scorer query) init).1 ∈ cs ∧
        (cs.foldl (step scorer query) init).2 =
          scorer query (cs.foldl (step scorer query) init).1) := by
  induction cs with
  | nil => intro _; exact Or.inl rfl
  | cons c cs ih =>
    intro init
    simp only [List.foldl_cons]
    rcases ih (step scorer query init c) with h | ⟨h1, h2⟩
    · rw [h]
      simp only [step]
      split
      · exact Or.inr ⟨List.mem_cons_self _ _, rfl⟩
      · exact Or.inl rfl
    · exact Or.inr ⟨List.mem_cons_of_mem _ h1, h2⟩

/-- The maximum fold never decreases the running score. -/
theorem foldl_step_le (scorer : Scorer) (query : String) (cs : List String) :
    ∀ (init : String × Score), init.2 ≤ (cs.foldl (step scorer query) init).2 := by
  induction cs with
  | nil => intro _; exact le_refl _
  | cons c cs ih =>
    intro init
    simp only [List.foldl_cons]
    refine le_trans ?_ (ih (step scorer query init c))
    simp only [step]
    split
    · next h => exact le_of_lt h
    · exact le_refl _

/-- Every scanned candidate's score is bounded by the fold's result. -/
theorem foldl_step_max (scorer : Scorer) (query : String) (cs : List String) :
    ∀ (init : String × Score) (x : String), x ∈ cs →
      scorer query x ≤ (cs.foldl (step scorer query) init).2 := by
  induction cs with
  | nil => intro _ x hx; cases hx
  | cons c cs ih =>
    intro init x hx
    simp only [List.foldl_cons]
    rcases List.mem_cons.mp hx with rfl | hx
    · refine le_trans ?_ (foldl_step_le scorer query cs (step scorer query init x))
      simp only [step]
      split
      · exact le_refl _
      · next h => exact le_of_not_lt h
    · exact ih (step scorer query init c) x hx

/-- On a non-empty list, `extractOne` returns a maximum-scoring candidate
together with its score. -/
theorem extractOne_spec (scorer : Scorer) (query : String) (c : String) (cs : List String) :
    ∃ b M, extractOne scorer query (c :: cs) = some (b, M) ∧
      b ∈ c :: cs ∧ scorer query b = M ∧ ∀ x ∈ c :: cs, scorer query x ≤ M := by
  refine ⟨(cs.foldl (step scorer query) (c, scorer query c)).1,
    (cs.foldl (step scorer query) (c, scorer query c)).2, rfl, ?_, ?_, ?_⟩
  · rcases foldl_step_cases scorer query cs (c, scorer query c) with h | ⟨h1, _⟩
    · rw [h]; exact List.mem_cons_self _ _
    · exact List.mem_cons_of_mem _ h1
  · rcases foldl_step_cases scorer query cs (c, scorer query c) with h | ⟨_, h2⟩
    · rw [h]
    · exact h2.symm
  · intro x hx
    rcases List.mem_cons.mp hx with rfl | hx
    · exact foldl_step_le scorer query cs (x, scorer query x)
    · exact foldl_step_max scorer query cs (c, scorer query c) x hx

/-- C1: on a non-empty candidate list, `find_best_match` with cutoff 50
locates a maximum-scoring candidate; it returns that candidate together
with its score when the maximum score is at least 50 (a score of exactly
50 is accepted), and returns no match together with the maximum score
when the maximum is strictly below 50. -/
theorem find_best_match_cutoff (scorer : Scorer) (query : String)
    (choices : List String) (h : choices ≠ []) :
    ∃ best M, best ∈ choices ∧ scorer query best = M ∧
      (∀ x ∈ choices, scorer query x ≤ M) ∧
      find_best_match scorer query choices 50 =
        (if 50 ≤ M then some best else none, M) := by
  match choices, h with
  | c :: cs, _ =>
    obtain ⟨b, M, hex, hmem, hsc, hmax⟩ := extractOne_spec scorer query c cs
    refine ⟨b, M, hmem, hsc, hmax, ?_⟩
    simp only [find_best_match, hex]
    split <;> rfl

/-- Witness for C1: a concrete scorer, query and candidate list. -/
theorem find_best_match_cutoff_witness :
    (["Cow Manure", "Banana Peels"] : List String) ≠ [] ∧
    ∃ best M, best ∈ (["Cow Manure", "Banana Peels"] : List String) ∧
      wScorer "cow dung" best = M ∧
      (∀ x ∈ (["Cow Manure", "Banana Peels"] : List String), wScorer "cow dung" x ≤ M) ∧
      find_best_match wScorer "cow dung" ["Cow Manure", "Banana Peels"] 50 =
        (if 50 ≤ M then some best else none, M) :=
  ⟨by decide, find_best_match_cutoff wScorer "cow dung" _ (by decide)⟩

/-- C2 counterexample: invoked on the empty candidate list, the code's
Matcher does not fail: it returns the ordinary value `(none, 0)` where
the claim demands an `InvalidInput` failure (shown by the spec-worded
variant `matchSpecE` disagreeing at this input). -/
theorem find_best_match_empty_no_error :
    find_best_matchE zScorer "compost" [] 50 = Except.ok (none, 0) ∧
    matchSpecE zScorer "compost" [] 50 = Except.error MatchErr.invalidInput ∧
    find_best_matchE zScorer "compost" [] 50 ≠ matchSpecE zScorer "compost" [] 50 := by
  refine ⟨rfl, rfl, ?_⟩
  intro hcontra
  simp only [find_best_matchE, matchSpecE, if_pos rfl, if_true] at hcontra
  exact Except.noConfusion hcontra

/-- C2 amended: the Matcher has no failure mode at all: every invocation
returns an ordinary result, and on an empty candidate list that result is
`bestMatch = none` with score `0` (the app never reaches this case, since
it stops earlier on an empty dataset). -/
theorem find_best_match_total (scorer : Scorer) (query : String) (cutoff : Score) :
    (∀ choices, find_best_matchE scorer query choices cutoff =
      Except.ok (find_best_match scorer query choices cutoff)) ∧
    find_best_match scorer query [] cutoff = (none, 0) :=
  ⟨fun _ => rfl, rfl⟩

/-- C3: a non-empty selectbox choice bypasses the Matcher: the outcome is
the selected name with score 100, the displayed record is the catalog
record of that name, and the result is independent of the scorer and of
the free-text content. -/
theorem recommend_selected (s1 s2 : Scorer) (selected t1 t2 : String)
    (df : List Row) (h : selected ≠ "") :
    recommend s1 selected t1 (df.map (fun r => r.wasteType)) =
      Outcome.matched selected 100 ∧
    displayed_record df (recommend s1 selected t1 (df.map (fun r => r.wasteType))) =
      waste_row df selected ∧
    recommend s1 selected t1 (df.map (fun r => r.wasteType)) =
      recommend s2 selected t2 (df.map (fun r => r.wasteType)) := by
  refine ⟨?_, ?_, ?_⟩ <;> simp [recommend, h, displayed_record]

/-- Witness for C3: a concrete selection over the demo catalog, with two
different scorers and two different free texts. -/
theorem recommend_selected_witness :
    ("Cow Manure" : String) ≠ "" ∧
    (recommend wScorer "Cow Manure" "banana" (demoCatalog.map (fun r => r.wasteType)) =
        Outcome.matched "Cow Manure" 100 ∧
      displayed_record demoCatalog
          (recommend wScorer "Cow Manure" "banana" (demoCatalog.map (fun r => r.wasteType))) =
        waste_row demoCatalog "Cow Manure" ∧
      recommend wScorer "Cow Manure" "banana" (demoCatalog.map (fun r => r.wasteType)) =
        recommend zScorer "Cow Manure" "xyz" (demoCatalog.map (fun r => r.wasteType))) :=
  ⟨by decide,
    recommend_selected wScorer zScorer "Cow Manure" "banana" "xyz" demoCatalog (by decide)⟩

/-- C4 counterexample: a `Yield_pct` cell holding `-5` parses as a valid
number but is not positive; the code uses `-5` where the claim demands
the default `40` (the code never checks positivity). -/
theorem yield_pct_negative_used :
    yield_pct (Cell.num (-5)) = -5 ∧ yield_pct_spec (Cell.num (-5)) = 40 ∧
    yield_pct (Cell.num (-5)) ≠ yield_pct_spec (Cell.num (-5)) :=
  ⟨rfl, by decide, by decide⟩

/-- C4 amended: the yield percentage is the cell's value whenever Python
`float()` converts it, whatever its sign, and the default `40.0` when the
field is absent or the conversion raises; the estimate equals
`quantityKg * yieldPct / 100`; in particular 100 kg with the field unset
gives 40 kg. -/
theorem est_compost_yield (qty q : ℚ) (s : String) :
    yield_pct (Cell.num q) = q ∧ yield_pct (Cell.text s) = 40 ∧
    yield_pct Cell.absent = 40 ∧
    (∀ c : Cell, est_compost qty c = qty * yield_pct c / 100) ∧
    est_compost 100 Cell.absent = 40 :=
  ⟨rfl, rfl, rfl, fun c => by rw [est_compost, mul_div_assoc],
    by norm_num [est_compost, yield_pct]⟩

set_option maxRecDepth 4000 in
/-- C5 (code bug): the report for a concrete matched record: the code
joins the report lines with the literal two-character sequence
backslash-n (source line 108 reads a doubled backslash inside the string
literal), so the generated report is a single physical line that contains
no newline character; a blank line also follows the timestamp. -/
theorem format_report_literal_separator :
    format_report "2025-01-01 00:00:00" cowRow none none =
      "Farm Waste → Fertilizer Advisor Report\\nGenerated: 2025-01-01 00:00:00\\n\\nWaste Type: Cow Manure\\nBest Use: Organic Manure\\nCompost Time: 4-6 weeks\\nNutrient: Nitrogen-rich\\nTips: Compost before use" ∧
    ¬ ('\n' ∈ (format_report "2025-01-01 00:00:00" cowRow none none).data) := by
  constructor <;> decide

/-- C9: a blank selection together with free text that strips to the
empty string produces the empty-input outcome, independently of the
scorer (the Matcher is not invoked). -/
theorem recommend_empty_input (s1 s2 : Scorer) (user_text : String)
    (waste_list : List String) (h : pyStrip user_text = "") :
    recommend s1 "" user_text waste_list = Outcome.emptyInput ∧
    recommend s1 "" user_text waste_list = recommend s2 "" user_text waste_list := by
  constructor <;> simp [recommend, h]

/-- Witness for C9 with whitespace-only free text. -/
theorem recommend_empty_input_witness :
    pyStrip "   " = "" ∧
    (recommend wScorer "" "   " ["Cow Manure", "Banana Peels"] = Outcome.emptyInput ∧
      recommend wScorer "" "   " ["Cow Manure", "Banana Peels"] =
        recommend zScorer "" "   " ["Cow Manure", "Banana Peels"]) :=
  ⟨by decide, recommend_empty_input wScorer zScorer "   " _ (by decide)⟩

/-- Indexed pairing: membership determines the candidate at the recorded
position. -/
theorem withIdx_mem (l : List String) :
    ∀ (n : ℕ) (c : String) (i : ℕ), (c, i) ∈ withIdx l n →
      n ≤ i ∧ l[i - n]? = some c := by
  induction l with
  | nil => intro n c i h; cases h
  | cons x xs ih =>
    intro n c i h
    rcases List.mem_cons.mp h with h | h
    · injection h with h1 h2
      subst h1
      subst h2
      exact ⟨le_refl _, by simp [Nat.sub_self]⟩
    · obtain ⟨hn, hget⟩ := ih (n + 1) c i h
      refine ⟨le_trans (Nat.le_succ n) hn, ?_⟩
      have hi : i - n = (i - (n + 1)) + 1 := by omega
      rw [hi, List.getElem?_cons_succ]
      exact hget

/-- Indexed pairing: every first component is a member of the list. -/
theorem withIdx_fst_mem (l : List String) :
    ∀ (n : ℕ) (p : String × ℕ), p ∈ withIdx l n → p.1 ∈ l := by
  induction l with
  | nil => intro n p h; cases h
  | cons x xs ih =>
    intro n p h
    rcases List.mem_cons.mp h with h | h
    · rw [h]; exact List.mem_cons_self _ _
    · exact List.mem_cons_of_mem _ (ih (n + 1) p h)

/-- C6: the suggestion list (`topK` with k = 5) has at most five entries
and is sorted non-increasingly by score; the underlying ranking is sorted
by score descending with ties broken by earlier position, and each ranked
entry pairs a candidate found at its recorded position in `choices` with
that candidate's score.  (No score cutoff occurs in the definition.) -/
theorem extract_topK (scorer : Scorer) (query : String) (choices : List String) :
    (extract scorer query choices 5).length ≤ 5 ∧
    (extract scorer query choices 5).Sorted (fun a b => b.2 ≤ a.2) ∧
    ((extractRanked scorer query choices).take 5).Sorted extractRel ∧
    (∀ p ∈ extractRanked scorer query choices,
      choices[p.2.2]? = some p.1 ∧ scorer query p.1 = p.2.1) := by
  have hsorted : ((extractRanked scorer query choices).take 5).Sorted extractRel :=
    List.Pairwise.sublist (List.take_sublist 5 _)
      (List.sorted_insertionSort extractRel _)
  refine ⟨?_, ?_, hsorted, ?_⟩
  · have hlen : (extract scorer query choices 5).length =
        min 5 (extractRanked scorer query choices).length := by
      simp [extract]
    rw [hlen]
    exact Nat.min_le_left _ _
  · rw [extract, List.Sorted, List.pairwise_map]
    refine hsorted.imp ?_
    intro a b hab
    rcases hab with h | ⟨h, _⟩
    · exact le_of_lt h
    · exact le_of_eq h.symm
  · intro p hp
    have hp2 : p ∈ (withIdx choices 0).map (fun q => (q.1, scorer query q.1, q.2)) :=
      (List.perm_insertionSort extractRel _).mem_iff.mp hp
    obtain ⟨q, hq, rfl⟩ := List.mem_map.mp hp2
    obtain ⟨_, hget⟩ := withIdx_mem choices 0 q.1 q.2 hq
    exact ⟨by simpa using hget, rfl⟩

/-- The maximum fold depends only on the scorer's values at the scanned
candidates. -/
theorem foldl_step_congr (s1 s2 : Scorer) (query : String) (cs : List String) :
    ∀ (init : String × Score), (∀ c ∈ cs, s1 query c = s2 query c) →
      cs.foldl (step s1 query) init = cs.foldl (step s2 query) init := by
  induction cs with
  | nil => intro _ _; rfl
  | cons c cs ih =>
    intro init h
    simp only [List.foldl_cons]
    have hstep : step s1 query init c = step s2 query init c := by
      simp only [step, h c (List.mem_cons_self c cs)]
    rw [hstep]
    exact ih _ (fun x hx => h x (List.mem_cons_of_mem c hx))

/-- `extractOne` depends only on the scorer's values at the candidates. -/
theorem extractOne_congr (s1 s2 : Scorer) (query : String) (choices : List String)
    (h : ∀ c ∈ choices, s1 query c = s2 query c) :
    extractOne s1 query choices = extractOne s2 query choices := by
  cases choices with
  | nil => rfl
  | cons c cs =>
    simp only [extractOne]
    rw [h c (List.mem_cons_self c cs),
      foldl_step_congr s1 s2 query cs _ (fun x hx => h x (List.mem_cons_of_mem c hx))]

/-- `extract` depends only on the scorer's values at the candidates. -/
theorem extract_congr (s1 s2 : Scorer) (query : String) (choices : List String) (k : ℕ)
    (h : ∀ c ∈ choices, s1 query c = s2 query c) :
    extract s1 query choices k = extract s2 query choices k := by
  have hmap : (withIdx choices 0).map (fun p => (p.1, s1 query p.1, p.2)) =
      (withIdx choices 0).map (fun p => (p.1, s2 query p.1, p.2)) :=
    List.map_congr_left (fun p hp => by rw [h p.1 (withIdx_fst_mem choices 0 p hp)])
  simp only [extract, extractRanked, hmap]

/-- C7: the Matcher is a deterministic pure function of its inputs: the
best match, its score and the suggestion list depend only on the scorer's
values at the query and the given candidates, so two calls on identical
inputs yield identical results. -/
theorem matcher_deterministic (s1 s2 : Scorer) (query : String) (choices : List String)
    (cutoff : Score) (h : ∀ c ∈ choices, s1 query c = s2 query c) :
    find_best_match s1 query choices cutoff = find_best_match s2 query choices cutoff ∧
    extract s1 query choices 5 = extract s2 query choices 5 := by
  constructor
  · simp only [find_best_match, extractOne_congr s1 s2 query choices h]
  · exact extract_congr s1 s2 query choices 5 h

/-- Witness for C7: two syntactically different scorers agreeing on the
demo candidates give identical match results and suggestion lists. -/
theorem matcher_deterministic_witness :
    (∀ c ∈ (["Cow Manure", "Banana Peels"] : List String),
      wScorer "cow dung" c = wScorer2 "cow dung" c) ∧
    (find_best_match wScorer "cow dung" ["Cow Manure", "Banana Peels"] 50 =
        find_best_match wScorer2 "cow dung" ["Cow Manure", "Banana Peels"] 50 ∧
      extract wScorer "cow dung" ["Cow Manure", "Banana Peels"] 5 =
        extract wScorer2 "cow dung" ["Cow Manure", "Banana Peels"] 5) :=
  ⟨by decide, matcher_deterministic wScorer wScorer2 "cow dung" _ 50 (by decide)⟩

/-- C8: the append handler validates the trimmed name: a blank name is
rejected with an error message and both the in-memory dataframe and the
persisted CSV are left unchanged; a non-blank name appends the
constructed record to the dataframe and persists the result. -/
theorem addNewWaste_validates (pyFloat : String → Option ℚ) (st : AppState)
    (w bu ct nu tp yl : String) :
    (pyStrip w = "" →
      addNewWaste pyFloat st w bu ct nu tp yl = (st, some "Enter a waste type name.")) ∧
    (pyStrip w ≠ "" →
      addNewWaste pyFloat st w bu ct nu tp yl =
        ({ catalog := st.catalog ++ [newRecord pyFloat w bu ct nu tp yl],
           storage := st.catalog ++ [newRecord pyFloat w bu ct nu tp yl] }, none)) := by
  constructor <;> intro h <;> simp [addNewWaste, h]

/-- Witness for C8: a blank name is rejected leaving the state unchanged;
a non-blank name appends the stripped record and persists it. -/
theorem addNewWaste_validates_witness :
    (pyStrip "   " = "" ∧
      addNewWaste pf0 st0 "   " "a" "b" "c" "d" "" = (st0, some "Enter a waste type name.")) ∧
    (pyStrip " Rice Husk " ≠ "" ∧
      addNewWaste pf0 st0 " Rice Husk " "Mulching" "" "" "" "" =
        ({ catalog := st0.catalog ++ [newRecord pf0 " Rice Husk " "Mulching" "" "" "" ""],
           storage := st0.catalog ++ [newRecord pf0 " Rice Husk " "Mulching" "" "" "" ""] },
          none)) :=
  ⟨⟨by decide, (addNewWaste_validates pf0 st0 "   " "a" "b" "c" "d" "").1 (by decide)⟩,
   ⟨by decide, (addNewWaste_validates pf0 st0 " Rice Husk " "Mulching" "" "" "" "").2 (by decide)⟩⟩

/-- C10: the row the read path uses for a matched name is the
earliest-positioned record bearing that name: it carries the name, sits
at some index of the dataframe, and every record at an earlier index
bears a different name, so later duplicates are never returned. -/
theorem waste_row_earliest (df : List Row) (name : String) (r : Row)
    (h : waste_row df name = some r) :
    r.wasteType = name ∧
    ∃ i : ℕ, df[i]? = some r ∧
      ∀ j : ℕ, j < i → ∀ s : Row, df[j]? = some s → s.wasteType ≠ name := by
  induction df with
  | nil => simp [waste_row] at h
  | cons x xs ih =>
    by_cases hx : x.wasteType = name
    · have hrow : waste_row (x :: xs) name = some x := by
        simp [waste_row, List.filter_cons, hx]
      rw [hrow] at h
      injection h with h
      subst h
      exact ⟨hx, 0, by simp, fun j hj => absurd hj (Nat.not_lt_zero j)⟩
    · have hrow : waste_row (x :: xs) name = waste_row xs name := by
        simp [waste_row, List.filter_cons, hx]
      rw [hrow] at h
      obtain ⟨h1, i, h2, h3⟩ := ih h
      refine ⟨h1, i + 1, by simpa using h2, ?_⟩
      intro j hj s hs
      cases j with
      | zero =>
        simp at hs
        rw [← hs]
        exact hx
      | succ j => exact h3 j (Nat.lt_of_succ_lt_succ hj) s (by simpa using hs)

/-- Witness for C10: in a catalog where "Cow Manure" appears at positions
0 and 2, the read path returns the position-0 record, never the later
duplicate. -/
theorem waste_row_earliest_witness :
    waste_row demoCatalog "Cow Manure" = some cowRow ∧
    (cowRow.wasteType = "Cow Manure" ∧
      ∃ i : ℕ, demoCatalog[i]? = some cowRow ∧
        ∀ j : ℕ, j < i → ∀ s : Row, demoCatalog[j]? = some s → s.wasteType ≠ "Cow Manure") :=
  ⟨by decide, waste_row_earliest demoCatalog "Cow Manure" cowRow (by decide)⟩
